import Mathlib

/-
Shallow embedding of the two browser scripts of the repository:
  src/rocm_blogs/static/js/performance.js   (deferred-script loader, metrics)
  src/rocm_blogs/static/js/image-loading.js (lazy-image visibility controller)
DOM elements are modelled by their attribute lists and class lists; the
browser event loop by explicit event traces over a per-image state machine.
-/

namespace RocmBlogsJs

/-- DOM attributes of one element: ordered name/value pairs.  A well-formed
DOM element never holds two attributes of the same name. -/
abbrev Attrs := List (String × String)

/-- DOM getAttribute: the value of the first attribute with the given name. -/
def getAttr : Attrs → String → Option String
  | [], _ => none
  | p :: rest, name => if p.1 = name then some p.2 else getAttr rest name

/-- DOM setAttribute: overwrite the value in place when the name is present,
append a fresh attribute otherwise. -/
def setAttribute : Attrs → String → String → Attrs
  | [], name, val => [(name, val)]
  | p :: rest, name, val =>
    if p.1 = name then (name, val) :: rest else p :: setAttribute rest name val

/-- A script element: its attributes and its inline text content. -/
structure ScriptEl where
  attrs : Attrs
  textContent : String
deriving DecidableEq

/-- The script carries the defer-load marker attribute
(selector script[defer-load], performance.js line 21). -/
def hasDeferLoad (s : ScriptEl) : Bool :=
  s.attrs.any (fun p => p.1 = "defer-load")

/-- The reflected src property, truthy exactly when the src attribute is
present (performance.js line 26). -/
def getSrc (s : ScriptEl) : Option String :=
  getAttr s.attrs "src"

/-- performance.js lines 33-37: copy every attribute except defer-load onto
the new element with setAttribute, in document order. -/
def copyAttrs (src : Attrs) (dst : Attrs) : Attrs :=
  src.foldl (fun acc p =>
    if p.1 ≠ "defer-load" then setAttribute acc p.1 p.2 else acc) dst

/-- performance.js lines 24-37: the replacement element built for one
deferred script: a fresh element, given the original src when present and
otherwise the original text content, then every attribute except the
defer-load marker. -/
def loadScript (s : ScriptEl) : ScriptEl :=
  let base : ScriptEl :=
    match getSrc s with
    | some v => { attrs := [("src", v)], textContent := "" }
    | none => { attrs := [], textContent := s.textContent }
  { base with attrs := copyAttrs s.attrs base.attrs }

/-- performance.js lines 19-42 (loadScriptsAsync): every script carrying the
defer-load marker is replaced, at its own document position, by its activated
copy; other elements are untouched. -/
def loadScriptsAsync (doc : List ScriptEl) : List ScriptEl :=
  doc.map (fun s => if hasDeferLoad s then loadScript s else s)

/-- A scheduling mechanism offered by the host runtime. -/
inductive Sched where
  | idleCallback : Sched
  | timeout : Nat → Sched
deriving DecidableEq

/-- A scheduled invocation: the mechanism and the function it will run. -/
structure ScriptTask where
  mech : Sched
  callback : List ScriptEl → List ScriptEl

/-- performance.js lines 45-49: deferred activation is handed to
requestIdleCallback when the capability is present, otherwise to a fixed
1000ms timeout; both carry loadScriptsAsync. -/
def scheduleLoadScripts (hasIdleCallback : Bool) : ScriptTask :=
  if hasIdleCallback then ⟨Sched.idleCallback, loadScriptsAsync⟩
  else ⟨Sched.timeout 1000, loadScriptsAsync⟩

/-- The two timestamps the metrics logger reads from
window.performance.timing, in integer milliseconds. -/
structure PerfTiming where
  navigationStart : Nat
  loadEventEnd : Nat
deriving DecidableEq

/-- performance.js line 14: loadEventEnd - navigationStart, exact integer
subtraction with no validity check or clamping. -/
def pageLoadTime (t : PerfTiming) : Int :=
  (t.loadEventEnd : Int) - (t.navigationStart : Int)

/-- performance.js lines 12-16: the numeric values emitted to the console
log channel; nothing is emitted when window.performance is absent. -/
def logMetrics (perf : Option PerfTiming) : List Int :=
  match perf with
  | some t => [pageLoadTime t]
  | none => []

/-- classList.add: append the token unless already present. -/
def addClass (cs : List String) (c : String) : List String :=
  if c ∈ cs then cs else cs ++ [c]

/-- classList.remove: drop the token. -/
def removeClass (cs : List String) (c : String) : List String :=
  cs.filter (fun x => x ≠ c)

/-- The runtime state of one image tracked by the visibility controller:
its native complete flag, its class list, whether the intersection observer
currently watches it, whether the handleLoad listener is attached, and the
delay in ms of a scheduled class-removal timeout when one is pending. -/
structure ImgState where
  complete : Bool
  classes : List String
  observed : Bool
  handlerAttached : Bool
  pendingRemove : Option Nat
deriving DecidableEq

/-- image-loading.js lines 15-20: the marker pass of handleImageLoading
adds the loading class to an image only when it is not yet complete. -/
def markStep (s : ImgState) : ImgState :=
  if !s.complete then { s with classes := addClass s.classes "loading" } else s

/-- image-loading.js lines 54-56: the observe pass registers the image with
the intersection observer. -/
def observeStep (s : ImgState) : ImgState :=
  { s with observed := true }

/-- The per-image effect of one handleImageLoading run: the marker pass
followed by the observe pass. -/
def scanStep (s : ImgState) : ImgState :=
  observeStep (markStep s)

/-- image-loading.js lines 24-46: delivery of one observer entry for the
image.  Entries arrive only while the image is observed; on an intersecting
entry the callback removes the marker at once when the image is complete,
otherwise attaches the handleLoad listener, and in both cases unobserves. -/
def observerStep (isIntersecting : Bool) (s : ImgState) : ImgState :=
  if s.observed && isIntersecting then
    if s.complete then
      { s with classes := removeClass s.classes "loading", observed := false }
    else
      { s with handlerAttached := true, observed := false }
  else s

/-- The load event firing on the image: the complete flag becomes set, and
when handleLoad is attached (image-loading.js lines 29-35) it schedules the
50ms marker removal and detaches itself. -/
def loadEvent (s : ImgState) : ImgState :=
  if s.handlerAttached then
    { s with complete := true, pendingRemove := some 50, handlerAttached := false }
  else
    { s with complete := true }

/-- Firing of the pending removal timeout (image-loading.js lines 31-33):
the marker is removed and the timer is consumed. -/
def timeoutFire (s : ImgState) : ImgState :=
  match s.pendingRemove with
  | some _ => { s with classes := removeClass s.classes "loading", pendingRemove := none }
  | none => s

/-- The events the browser can deliver to one image. -/
inductive Ev where
  | scan : Ev
  | intersect : Bool → Ev
  | load : Ev
  | tick : Ev
deriving DecidableEq

/-- One event applied to one image state. -/
def stepEv (s : ImgState) : Ev → ImgState
  | Ev.scan => scanStep s
  | Ev.intersect b => observerStep b s
  | Ev.load => loadEvent s
  | Ev.tick => timeoutFire s

/-- A whole event trace applied to one image state. -/
def runEvs (s : ImgState) (evs : List Ev) : ImgState :=
  evs.foldl stepEv s

/-- image-loading.js lines 10-57: one handleImageLoading run over the list
of selected images. -/
def handleImageLoading (imgs : List ImgState) : List ImgState :=
  imgs.map scanStep

/-- One invocation scheduled by the DOMContentLoaded handler: immediate when
delay is none, via setTimeout with the given delay otherwise. -/
structure ImgCall where
  delay : Option Nat
  callback : List ImgState → List ImgState

/-- image-loading.js lines 59-63: run handleImageLoading at once and once
more 500ms later. -/
def imageOnReady : List ImgCall :=
  [⟨none, handleImageLoading⟩, ⟨some 500, handleImageLoading⟩]

/-- An image as the controller first meets it: not observed, no listener,
no pending timer. -/
def freshImg (complete : Bool) (classes : List String) : ImgState :=
  ⟨complete, classes, false, false, none⟩

/-- The deferred script of the spec scenario:
script with defer-load, src="a.js" and data-x="1". -/
def exDoc : List ScriptEl :=
  [⟨[("defer-load", ""), ("src", "a.js"), ("data-x", "1")], ""⟩]

/-! Helper lemmas about attribute lists. -/

theorem getAttr_setAttribute (attrs : Attrs) (m v n : String) :
    getAttr (setAttribute attrs m v) n = if n = m then some v else getAttr attrs n := by
  induction attrs with
  | nil =>
    by_cases h : n = m
    · simp [setAttribute, getAttr, h]
    · simp [setAttribute, getAttr, h, Ne.symm h]
  | cons p rest ih =>
    by_cases hp : p.1 = m
    · by_cases h : n = m
      · simp [setAttribute, getAttr, hp, h]
      · have hpn : p.1 ≠ n := by rw [hp]; exact Ne.symm h
        simp [setAttribute, getAttr, hp, h, Ne.symm h, hpn]
    · by_cases hq : p.1 = n
      · have hnm : ¬n = m := fun hnm => hp (hq.trans hnm)
        simp [setAttribute, getAttr, hp, hq, hnm]
      · simp [setAttribute, getAttr, hp, hq]
        exact ih

theorem getAttr_eq_none_of_not_mem (attrs : Attrs) (n : String)
    (h : n ∉ attrs.map Prod.fst) : getAttr attrs n = none := by
  induction attrs with
  | nil => rfl
  | cons p rest ih =>
    rw [List.map_cons, List.mem_cons] at h
    push_neg at h
    simp [getAttr, Ne.symm h.1, ih h.2]

theorem copyAttrs_cons (p : String × String) (rest : Attrs) (dst : Attrs) :
    copyAttrs (p :: rest) dst =
      copyAttrs rest (if p.1 ≠ "defer-load" then setAttribute dst p.1 p.2 else dst) := rfl

theorem getAttr_copyAttrs_marker (src : Attrs) : ∀ dst : Attrs,
    getAttr (copyAttrs src dst) "defer-load" = getAttr dst "defer-load" := by
  induction src with
  | nil => intro dst; rfl
  | cons p rest ih =>
    intro dst
    rw [copyAttrs_cons]
    by_cases hp : p.1 = "defer-load"
    · simp only [hp, ne_eq, not_true_eq_false, if_false]
      exact ih dst
    · simp only [ne_eq, hp, not_false_eq_true, if_true]
      rw [ih, getAttr_setAttribute]
      simp [Ne.symm hp]

theorem getAttr_copyAttrs (src : Attrs) : ∀ dst : Attrs,
    (src.map Prod.fst).Nodup → ∀ n : String, n ≠ "defer-load" →
    getAttr (copyAttrs src dst) n = (getAttr src n).or (getAttr dst n) := by
  induction src with
  | nil => intro dst _ n _; simp [copyAttrs, getAttr]
  | cons p rest ih =>
    intro dst hnd n hn
    rw [List.map_cons, List.nodup_cons] at hnd
    obtain ⟨hp1, hnd2⟩ := hnd
    rw [copyAttrs_cons]
    by_cases hp : p.1 = "defer-load"
    · simp only [hp, ne_eq, not_true_eq_false, if_false]
      rw [ih dst hnd2 n hn]
      have hpn : p.1 ≠ n := by rw [hp]; exact Ne.symm hn
      simp [getAttr, hpn]
    · simp only [ne_eq, hp, not_false_eq_true, if_true]
      rw [ih _ hnd2 n hn, getAttr_setAttribute]
      by_cases hq : p.1 = n
      · have hrn : getAttr rest n = none :=
          getAttr_eq_none_of_not_mem rest n (hq ▸ hp1)
        rw [hrn, Option.none_or, if_pos hq.symm]
        simp [getAttr, hq]
      · have hq2 : ¬n = p.1 := fun h => hq h.symm
        rw [if_neg hq2]
        simp [getAttr, hq]

theorem loadScript_attrs_spec (s : ScriptEl) (hnd : (s.attrs.map Prod.fst).Nodup) :
    getAttr (loadScript s).attrs "defer-load" = none ∧
    ∀ n, n ≠ "defer-load" → getAttr (loadScript s).attrs n = getAttr s.attrs n := by
  cases hsrc : getSrc s with
  | some v =>
    have hattrs : (loadScript s).attrs = copyAttrs s.attrs [("src", v)] := by
      simp [loadScript, hsrc]
    constructor
    · rw [hattrs, getAttr_copyAttrs_marker]
      simp [getAttr]
    · intro n hn
      rw [hattrs, getAttr_copyAttrs s.attrs _ hnd n hn]
      cases h : getAttr s.attrs n with
      | some w => rw [Option.or_some]
      | none =>
        have hns : ¬"src" = n := by
          intro hh
          rw [getSrc, hh, h] at hsrc
          exact Option.noConfusion hsrc
        simp [getAttr, hns]
  | none =>
    have hattrs : (loadScript s).attrs = copyAttrs s.attrs [] := by
      simp [loadScript, hsrc]
    constructor
    · rw [hattrs, getAttr_copyAttrs_marker]
      rfl
    · intro n hn
      rw [hattrs, getAttr_copyAttrs s.attrs _ hnd n hn]
      rw [show getAttr [] n = none from rfl, Option.or_none]

/-! Helper lemmas about class lists and image steps. -/

theorem mem_addClass (cs : List String) (c : String) : c ∈ addClass cs c := by
  by_cases h : c ∈ cs <;> simp [addClass, h]

theorem mem_addClass_of_mem (cs : List String) (c x : String) (h : x ∈ cs) :
    x ∈ addClass cs c := by
  by_cases hc : c ∈ cs <;> simp [addClass, hc, h]

theorem not_mem_removeClass (cs : List String) (c : String) :
    c ∉ removeClass cs c := by
  simp [removeClass]

theorem addClass_idem (cs : List String) (c : String) :
    addClass (addClass cs c) c = addClass cs c := by
  by_cases h : c ∈ cs <;> simp [addClass, h]

theorem countP_complete_split (imgs : List ImgState) :
    imgs.countP (fun s => !s.complete) + imgs.countP (fun s => s.complete) =
      imgs.length := by
  induction imgs with
  | nil => rfl
  | cons s rest ih =>
    by_cases h : s.complete <;> simp [List.countP_cons, h] <;> omega

theorem observerStep_not_observed (b : Bool) (s : ImgState)
    (h : s.observed = false) : observerStep b s = s := by
  simp [observerStep, h]

theorem runEvs_cons (s : ImgState) (e : Ev) (rest : List Ev) :
    runEvs s (e :: rest) = runEvs (stepEv s e) rest := rfl

theorem runEvs_no_intersect (evs : List Ev) : ∀ s : ImgState,
    "loading" ∈ s.classes → s.handlerAttached = false → s.pendingRemove = none →
    Ev.intersect true ∉ evs →
    "loading" ∈ (runEvs s evs).classes ∧
    (runEvs s evs).handlerAttached = false ∧
    (runEvs s evs).pendingRemove = none := by
  induction evs with
  | nil => intro s h1 h2 h3 _; exact ⟨h1, h2, h3⟩
  | cons e rest ih =>
    intro s h1 h2 h3 hno
    rw [List.mem_cons] at hno
    push_neg at hno
    obtain ⟨hne, hno2⟩ := hno
    have hstep : "loading" ∈ (stepEv s e).classes ∧
        (stepEv s e).handlerAttached = false ∧
        (stepEv s e).pendingRemove = none := by
      cases e with
      | scan =>
        by_cases hc : s.complete <;>
          simp [stepEv, scanStep, markStep, observeStep, hc, h1, h2, h3,
            mem_addClass_of_mem]
      | intersect b =>
        cases b with
        | true => exact absurd rfl hne
        | false =>
          simp [stepEv, observerStep]
          exact ⟨h1, h2, h3⟩
      | load => simp [stepEv, loadEvent, h1, h2, h3]
      | tick => simp [stepEv, timeoutFire, h1, h2, h3]
    rw [runEvs_cons]
    exact ih (stepEv s e) hstep.1 hstep.2.1 hstep.2.2 hno2

/-! The claims. -/

/-- Claim C1: for every script element carrying the defer-load marker, the
element that replaces it at the same document position after deferred
activation has exactly the same attributes as the original except that the
defer-load attribute is absent, and it has the original's src reference when
the original had one, otherwise the original's inline text content. -/
theorem c1_deferred_activation (doc : List ScriptEl) (i : Nat)
    (hi : i < doc.length) (hi2 : i < (loadScriptsAsync doc).length)
    (hnd : ((doc.get ⟨i, hi⟩).attrs.map Prod.fst).Nodup)
    (hm : hasDeferLoad (doc.get ⟨i, hi⟩) = true) :
    (loadScriptsAsync doc).get ⟨i, hi2⟩ = loadScript (doc.get ⟨i, hi⟩) ∧
    getAttr (loadScript (doc.get ⟨i, hi⟩)).attrs "defer-load" = none ∧
    (∀ n, n ≠ "defer-load" →
      getAttr (loadScript (doc.get ⟨i, hi⟩)).attrs n =
        getAttr (doc.get ⟨i, hi⟩).attrs n) ∧
    (∀ v, getSrc (doc.get ⟨i, hi⟩) = some v →
      getSrc (loadScript (doc.get ⟨i, hi⟩)) = some v) ∧
    (getSrc (doc.get ⟨i, hi⟩) = none →
      (loadScript (doc.get ⟨i, hi⟩)).textContent = (doc.get ⟨i, hi⟩).textContent) := by
  refine ⟨?_, (loadScript_attrs_spec _ hnd).1, (loadScript_attrs_spec _ hnd).2, ?_, ?_⟩
  · rw [List.get_eq_getElem] at hm
    simp [loadScriptsAsync, hm]
  · intro v hv
    have h := (loadScript_attrs_spec _ hnd).2 "src" (by decide)
    rw [getSrc, h]
    exact hv
  · intro h
    rw [List.get_eq_getElem] at h
    simp [loadScript, h]

theorem c1_witness :
    (loadScriptsAsync exDoc).get ⟨0, by decide⟩ = loadScript (exDoc.get ⟨0, by decide⟩) ∧
    getAttr (loadScript (exDoc.get ⟨0, by decide⟩)).attrs "defer-load" = none ∧
    getAttr (loadScript (exDoc.get ⟨0, by decide⟩)).attrs "data-x" =
      getAttr (exDoc.get ⟨0, by decide⟩).attrs "data-x" ∧
    getSrc (loadScript (exDoc.get ⟨0, by decide⟩)) = some "a.js" :=
  ⟨(c1_deferred_activation exDoc 0 (by decide) (by decide) (by decide) (by decide)).1,
   (c1_deferred_activation exDoc 0 (by decide) (by decide) (by decide) (by decide)).2.1,
   (c1_deferred_activation exDoc 0 (by decide) (by decide) (by decide)
     (by decide)).2.2.1 "data-x" (by decide),
   (c1_deferred_activation exDoc 0 (by decide) (by decide) (by decide)
     (by decide)).2.2.2.1 "a.js" (by decide)⟩

/-- Claim C2: for every image delivered to the intersection callback as
intersecting: a complete image has the marker removed immediately, an
incomplete one gets the one-shot handleLoad listener that on load schedules
the 50ms marker removal and detaches itself, and in both cases the image
stops being observed; consequently an image not complete at scan time that
enters the margin has the marker applied and removed by the 50ms timer after
its load event. -/
theorem c2_intersection_callback (s : ImgState) (h : s.observed = true) :
    (observerStep true s).observed = false ∧
    (s.complete = true →
      (observerStep true s).classes = removeClass s.classes "loading") ∧
    (s.complete = false →
      (observerStep true s).handlerAttached = true ∧
      (observerStep true s).classes = s.classes ∧
      (loadEvent (observerStep true s)).pendingRemove = some 50 ∧
      (loadEvent (observerStep true s)).handlerAttached = false) ∧
    (s.complete = false →
      "loading" ∈ (scanStep s).classes ∧
      (loadEvent (observerStep true (scanStep s))).pendingRemove = some 50 ∧
      (loadEvent (observerStep true (scanStep s))).handlerAttached = false ∧
      "loading" ∉
        (timeoutFire (loadEvent (observerStep true (scanStep s)))).classes) := by
  refine ⟨?_, ?_, ?_, ?_⟩
  · by_cases hc : s.complete <;> simp [observerStep, h, hc]
  · intro hc
    simp [observerStep, h, hc]
  · intro hc
    simp [observerStep, loadEvent, h, hc]
  · intro hc
    refine ⟨?_, ?_, ?_, ?_⟩
    · simp [scanStep, markStep, observeStep, hc, mem_addClass]
    · simp [scanStep, markStep, observeStep, observerStep, loadEvent, hc]
    · simp [scanStep, markStep, observeStep, observerStep, loadEvent, hc]
    · simp [scanStep, markStep, observeStep, observerStep, loadEvent,
        timeoutFire, hc, not_mem_removeClass]

theorem c2_witness :
    (observerStep true ⟨true, ["loading"], true, false, none⟩).observed = false ∧
    (observerStep true ⟨true, ["loading"], true, false, none⟩).classes =
      removeClass ["loading"] "loading" ∧
    (observerStep true ⟨false, [], true, false, none⟩).handlerAttached = true ∧
    "loading" ∈ (scanStep ⟨false, [], true, false, none⟩).classes ∧
    (loadEvent (observerStep true (scanStep ⟨false, [], true, false,
      none⟩))).pendingRemove = some 50 ∧
    "loading" ∉ (timeoutFire (loadEvent (observerStep true (scanStep ⟨false, [],
      true, false, none⟩)))).classes :=
  ⟨(c2_intersection_callback ⟨true, ["loading"], true, false, none⟩ rfl).1,
   (c2_intersection_callback ⟨true, ["loading"], true, false, none⟩ rfl).2.1 rfl,
   ((c2_intersection_callback ⟨false, [], true, false, none⟩ rfl).2.2.1 rfl).1,
   ((c2_intersection_callback ⟨false, [], true, false, none⟩ rfl).2.2.2 rfl).1,
   ((c2_intersection_callback ⟨false, [], true, false, none⟩ rfl).2.2.2 rfl).2.1,
   ((c2_intersection_callback ⟨false, [], true, false, none⟩ rfl).2.2.2 rfl).2.2.2⟩

/-- Claim C3: within one controller run every image is observed at most
once: after its first intersecting delivery it is unobserved, and a second
delivery for the same element changes its class list no further. -/
theorem c3_observed_once (s : ImgState) (h : s.observed = true) (b : Bool) :
    (observerStep true s).observed = false ∧
    (observerStep b (observerStep true s)).classes = (observerStep true s).classes := by
  have h1 : (observerStep true s).observed = false := by
    by_cases hc : s.complete <;> simp [observerStep, h, hc]
  refine ⟨h1, ?_⟩
  rw [observerStep_not_observed b _ h1]

theorem c3_witness :
    (observerStep true ⟨false, ["loading"], true, false, none⟩).observed = false ∧
    (observerStep true (observerStep true ⟨false, ["loading"], true, false,
      none⟩)).classes =
      (observerStep true ⟨false, ["loading"], true, false, none⟩).classes :=
  c3_observed_once ⟨false, ["loading"], true, false, none⟩ rfl true

/-- Claim C4: for every image whose complete flag is already set at scan
time, the marker pass of the initial scan never applies the loading class
and has no side effect on the image at all. -/
theorem c4_complete_untouched (s : ImgState) (h : s.complete = true) :
    markStep s = s := by
  simp [markStep, h]

theorem c4_witness : markStep (freshImg true []) = freshImg true [] :=
  c4_complete_untouched (freshImg true []) rfl

/-- Claim C5: with the idle-callback capability present the deferred
activation is scheduled through it, without it through an unconditional
fixed 1000ms timeout, and in both cases the scheduled callback is the
activation function itself. -/
theorem c5_idle_scheduling :
    (scheduleLoadScripts true).mech = Sched.idleCallback ∧
    (scheduleLoadScripts false).mech = Sched.timeout 1000 ∧
    ∀ b : Bool, (scheduleLoadScripts b).callback = loadScriptsAsync := by
  refine ⟨rfl, rfl, ?_⟩
  intro b
  cases b <;> rfl

/-- Claim C6: with timing information available the metrics logger emits
exactly loadEventEnd minus navigationStart to the log channel; without it,
it emits nothing. -/
theorem c6_metrics_logging :
    logMetrics none = [] ∧
    ∀ t : PerfTiming, logMetrics (some t) =
      [(t.loadEventEnd : Int) - (t.navigationStart : Int)] :=
  ⟨rfl, fun _ => rfl⟩

/-- Claim C7: the scan-plus-watch procedure is re-invoked exactly once, by a
500ms timeout, and the re-scan is idempotent on re-selected images: a second
scan, also after the complete flag changed in between, leaves the marker
state exactly where a single scan left it. -/
theorem c7_rescan_once_idempotent :
    imageOnReady.map ImgCall.delay = [none, some 500] ∧
    imageOnReady.map ImgCall.callback = [handleImageLoading, handleImageLoading] ∧
    (∀ s : ImgState, scanStep (scanStep s) = scanStep s) ∧
    (∀ s : ImgState,
      (scanStep (loadEvent (scanStep s))).classes = (scanStep s).classes) := by
  refine ⟨rfl, rfl, ?_, ?_⟩
  · intro s
    by_cases hc : s.complete <;>
      simp [scanStep, markStep, observeStep, hc, addClass_idem]
  · intro s
    by_cases hc : s.complete <;> by_cases hh : s.handlerAttached <;>
      simp [scanStep, markStep, observeStep, loadEvent, hc, hh]

/-- Claim C8: on a page with exactly three matching images of which two are
complete and one is not, exactly one element carries the loading marker
after the initial scan. -/
theorem c8_three_images (imgs : List ImgState)
    (h0 : ∀ s ∈ imgs, "loading" ∉ s.classes)
    (hlen : imgs.length = 3)
    (hc : imgs.countP (fun s => s.complete) = 2) :
    (handleImageLoading imgs).countP
      (fun s => decide ("loading" ∈ s.classes)) = 1 := by
  have hmap : (handleImageLoading imgs).countP
      (fun s => decide ("loading" ∈ s.classes)) =
      imgs.countP (fun s => decide ("loading" ∈ (scanStep s).classes)) := by
    simp [handleImageLoading, List.countP_map]
    rfl
  have hcongr : imgs.countP (fun s => decide ("loading" ∈ (scanStep s).classes)) =
      imgs.countP (fun s => !s.complete) := by
    apply List.countP_congr
    intro s hs
    have hns := h0 s hs
    by_cases hcs : s.complete <;>
      simp [scanStep, markStep, observeStep, hcs, hns, mem_addClass]
  have hsplit := countP_complete_split imgs
  rw [hmap, hcongr]
  omega

theorem c8_witness :
    (handleImageLoading [freshImg true [], freshImg true [], freshImg false []]).countP
      (fun s => decide ("loading" ∈ s.classes)) = 1 :=
  c8_three_images [freshImg true [], freshImg true [], freshImg false []]
    (by decide) (by decide) (by decide)

/-- Claim C9: an image that receives the loading marker at scan time but
never gets an intersecting observer delivery keeps the marker forever, even
across load completion: removal is reachable only through the intersection
callback path. -/
theorem c9_marker_persists (c : Bool) (cs : List String) (evs : List Ev)
    (hmark : "loading" ∈ (scanStep (freshImg c cs)).classes)
    (hno : Ev.intersect true ∉ evs) :
    "loading" ∈ (runEvs (scanStep (freshImg c cs)) evs).classes := by
  have h2 : (scanStep (freshImg c cs)).handlerAttached = false := by
    by_cases h : c <;> simp [scanStep, markStep, observeStep, freshImg, h]
  have h3 : (scanStep (freshImg c cs)).pendingRemove = none := by
    by_cases h : c <;> simp [scanStep, markStep, observeStep, freshImg, h]
  exact (runEvs_no_intersect evs _ hmark h2 h3 hno).1

theorem c9_witness :
    "loading" ∈ (runEvs (scanStep (freshImg false []))
      [Ev.scan, Ev.load, Ev.tick, Ev.intersect false]).classes :=
  c9_marker_persists false [] [Ev.scan, Ev.load, Ev.tick, Ev.intersect false]
    (by decide) (by decide)

/-- Claim C10: the metrics computation applies no validity check or
clamping: the logged value is the exact integer difference loadEventEnd
minus navigationStart, and it is negative whenever loadEventEnd is smaller
than navigationStart. -/
theorem c10_no_clamping (t : PerfTiming) (h : t.loadEventEnd < t.navigationStart) :
    logMetrics (some t) = [(t.loadEventEnd : Int) - (t.navigationStart : Int)] ∧
    pageLoadTime t < 0 := by
  refine ⟨rfl, ?_⟩
  simp only [pageLoadTime]
  omega

theorem c10_witness :
    logMetrics (some ⟨5, 0⟩) =
      [((0 : Nat) : Int) - ((5 : Nat) : Int)] ∧ pageLoadTime ⟨5, 0⟩ < 0 :=
  c10_no_clamping ⟨5, 0⟩ (by decide)

end RocmBlogsJs
